import Mathlib

/-
  Verification of the Git-Monitor process-scan and command-classification core.

  Shallow embedding of:
    gitmonitor/parser.py       (GitCommandParser: parse_command and the per-command argument extractors)
    gitmonitor/git_analyzer.py (GitCommandAnalyzer: analyze_command and friends, external git
                                queries abstracted as an injected GitEnv capability)
    gitmonitor/monitor.py      (GitOperationMonitor: _record_git_command, _cleanup_pid_cache)
    gitmonitor/utils.py        (is_ignored_command, get_git_command_description)

  Python strings are modelled as Lean String, Python string methods are re-implemented
  faithfully on character lists (split, strip, substring containment, the concrete regular
  expressions used by the source).  External effects (the git binary, the filesystem, the
  clock) are injected as explicit parameters, matching the source's narrow shell-out and
  os.path boundaries.  Machine floats for time.time() are modelled as Int seconds; the
  source only compares differences against whole-second constants.
-/

/-! ## Python string primitives -/

/-- Python str.split() with no separator: split on whitespace runs, dropping empties. -/
def wordsAux : List Char → List Char → List (List Char)
  | [], acc => if acc.isEmpty then [] else [acc.reverse]
  | c :: r, acc =>
    if c.isWhitespace then
      if acc.isEmpty then wordsAux r [] else acc.reverse :: wordsAux r []
    else wordsAux r (c :: acc)

def pyWords (s : String) : List String :=
  (wordsAux s.data []).map String.mk

/-- Python `pat in s` substring containment. -/
def containsL (pat : List Char) : List Char → Bool
  | [] => pat.isEmpty
  | c :: rest => pat.isPrefixOf (c :: rest) || containsL pat rest

def pyContains (s pat : String) : Bool := containsL pat.data s.data

/-- Python str.startswith. -/
def pyStartsWith (s pre : String) : Bool := pre.data.isPrefixOf s.data

/-- Python str.endswith. -/
def pyEndsWith (s suf : String) : Bool := suf.data.isSuffixOf s.data

/-- Python str.strip() (whitespace both ends). -/
def pyStrip (s : String) : String :=
  String.mk (((s.data.dropWhile Char.isWhitespace).reverse.dropWhile Char.isWhitespace).reverse)

/-- Python str.rstrip("/"). -/
def pyRstripSlash (s : String) : String :=
  String.mk (s.data.reverse.dropWhile (fun c => c = '/')).reverse

/-- First segment of `cs` before an occurrence of `sep`, plus the remainder after that
occurrence (none if `sep` does not occur). -/
def splitSeg (sep : List Char) : List Char → List Char × Option (List Char)
  | [] => ([], none)
  | c :: rest =>
    if sep.isPrefixOf (c :: rest) then ([], some (List.drop sep.length (c :: rest)))
    else
      let p := splitSeg sep rest
      (c :: p.1, p.2)

def splitOnFuel (sep : List Char) : Nat → List Char → List (List Char)
  | 0, cs => [cs]
  | n + 1, cs =>
    match splitSeg sep cs with
    | (seg, none) => [seg]
    | (seg, some rem) => seg :: splitOnFuel sep n rem

/-- Python s.split(sep) for a non-empty separator. -/
def pySplitOn (s sep : String) : List String :=
  if sep.data.isEmpty then [s]
  else (splitOnFuel sep.data (s.data.length + 1) s.data).map String.mk

def natOfDigits (ds : List Char) : Nat :=
  ds.foldl (fun a c => a * 10 + (c.toNat - '0'.toNat)) 0

/-- Python int(s): optional sign, all digits, surrounding whitespace stripped. -/
def pyToInt (s : String) : Option Int :=
  match (pyStrip s).data with
  | '-' :: ds => if ds.isEmpty || !ds.all Char.isDigit then none else some (-(natOfDigits ds : Int))
  | '+' :: ds => if ds.isEmpty || !ds.all Char.isDigit then none else some ((natOfDigits ds : Int))
  | ds => if ds.isEmpty || !ds.all Char.isDigit then none else some ((natOfDigits ds : Int))

/-- os.path.basename with "/" separators. -/
def pyBasename (s : String) : String := (pySplitOn s "/").getLastD ""

/-- os.path.join of two components with "/". -/
def pyJoin (a b : String) : String := a ++ "/" ++ b

/-- re.search(r"(\d+)MARKER", s): leftmost maximal digit run immediately followed by
`marker`, returned as a number. -/
def findCountBefore (marker : List Char) : List Char → Option Nat
  | [] => none
  | c :: rest =>
    if c.isDigit then
      let run := (c :: rest).takeWhile Char.isDigit
      let after := (c :: rest).dropWhile Char.isDigit
      if marker.isPrefixOf after then some (natOfDigits run)
      else findCountBefore marker rest
    else findCountBefore marker rest

/-! ## parser.py: GitCommandParser -/

/-- Value of a dynamically-typed extraction: _extract_option returns a string, a boolean,
or Python None depending on is_valued. -/
inductive PyOpt where
  | str (s : String)
  | bool (b : Bool)
  | pynone
deriving DecidableEq

/-- Python truthiness of a PyOpt value. -/
def pyTruthy : PyOpt → Bool
  | .str s => !(s = "")
  | .bool b => b
  | .pynone => false

/-- Python `a or b`. -/
def pyOr (a b : PyOpt) : PyOpt := if pyTruthy a then a else b

/-- One attempt of re.search(r"OPT[= ]([^\s]+)", args) at the current position. -/
def tryOptValAt (opt cs : List Char) : Option (List Char) :=
  if opt.isPrefixOf cs then
    match cs.drop opt.length with
    | d :: ds =>
      if d = '=' || d = ' ' then
        let v := ds.takeWhile (fun x => !x.isWhitespace)
        if v.isEmpty then none else some v
      else none
    | [] => none
  else none

/-- re.search(r"OPT[= ]([^\s]+)", args): scan left to right. -/
def searchOptVal (opt : List Char) : List Char → Option (List Char)
  | [] => none
  | c :: rest =>
    match tryOptValAt opt (c :: rest) with
    | some v => some v
    | none => searchOptVal opt rest

/-- Fallback loop of _extract_option: the token following a token equal to `opt`. -/
def optTokenAfter (opt : String) : List String → Option String
  | [] => none
  | [_] => none
  | p :: q :: rest => if p = opt then some q else optTokenAfter opt (q :: rest)

/-- GitCommandParser._extract_option. -/
def extractOption (args opt : String) (isValued : Bool) : PyOpt :=
  if isValued = false then PyOpt.bool ((pyWords args).contains opt)
  else
    match searchOptVal opt.data args.data with
    | some v => PyOpt.str (String.mk v)
    | none =>
      match optTokenAfter opt (pyWords args) with
      | some v => PyOpt.str v
      | none => PyOpt.pynone

/-- re.search(PRE ++ quoted body, s): leftmost occurrence of the literal `pre` followed by
a body of characters other than `q`, terminated by `q`. -/
def searchDelim (pre : List Char) (q : Char) : List Char → Option (List Char)
  | [] => none
  | c :: rest =>
    match
      (if pre.isPrefixOf (c :: rest) then
        let r := (c :: rest).drop pre.length
        let body := r.takeWhile (fun x => !(x = q))
        if (r.dropWhile (fun x => !(x = q))).head? = some q then some body else none
      else none) with
    | some b => some b
    | none => searchDelim pre q rest

/-- re.match(r"git\s+SUB\s+(.*)", command), or with \s* before the group when
`optionalSep` (the init pattern).  Returns group(1). -/
def matchGitPattern (sub : String) (optionalSep : Bool) (command : String) : Option String :=
  let cs := command.data
  if ("git".data).isPrefixOf cs then
    let r1 := cs.drop 3
    if (r1.takeWhile Char.isWhitespace).isEmpty then none
    else
      let r2 := r1.dropWhile Char.isWhitespace
      if sub.data.isPrefixOf r2 then
        let r3 := r2.drop sub.data.length
        if !optionalSep && (r3.takeWhile Char.isWhitespace).isEmpty then none
        else some (String.mk ((r3.dropWhile Char.isWhitespace).takeWhile (fun c => !(c = '\n'))))
      else none
  else none

/-- The ordered sub-command pattern table of GitCommandParser.__init__ (the init pattern
uses \s* before its group, all others \s+). -/
def gitCmdPats : List (String × Bool) :=
  [("init", true), ("clone", false), ("branch", false), ("checkout", false),
   ("add", false), ("commit", false), ("merge", false), ("push", false),
   ("pull", false), ("cherry-pick", false)]

def findPat (command : String) : List (String × Bool) → Option (String × String)
  | [] => none
  | (ty, optSep) :: rest =>
    match matchGitPattern ty optSep command with
    | some g => some (ty, g)
    | none => findPat command rest

/-- utils.get_git_command_description. -/
def descTable : List (String × String) :=
  [("git init", "初始化一个新的Git仓库"), ("git clone", "克隆远程仓库到本地"),
   ("git branch", "创建、列出或删除分支"), ("git checkout", "切换分支或恢复工作区文件"),
   ("git add", "将文件添加到暂存区"), ("git commit", "提交暂存区内容到本地仓库"),
   ("git merge", "合并分支"), ("git push", "推送本地分支到远程仓库"),
   ("git pull", "拉取远程分支并合并到本地"), ("git cherry-pick", "选择性地应用提交")]

def gitCmdDescription (command : String) : Option String :=
  (descTable.find? (fun p => pyStartsWith command p.1)).map (fun p => p.2)

/-- Typed counterpart of the parsed_args dict produced by the per-command extractors.
cherry-pick keeps the empty dict: parse_command looks up a method named
"_parse_cherry-pick", which does not exist (the method is _parse_cherry_pick), so its
extractor is never invoked. -/
inductive ParsedArgs where
  | empty
  | init (directory : String) (is_bare : Bool)
  | clone (repository_url destination : String) (depth branch : PyOpt)
  | branch (is_list is_delete : Bool) (branch_name : Option String)
  | checkout (branch_name : Option String) (create_new is_file : Bool)
  | add (files : List String) (all : Bool)
  | commit (message : PyOpt) (amend all : Bool)
  | merge (branch_name : Option String) (no_ff ff_only squash : Bool)
  | push (remote : String) (branch : Option String) (force all : Bool)
  | pull (remote : String) (branch : Option String) (rebase : Bool)
deriving DecidableEq

/-- GitCommandParser._parse_init (cwd injected for os.getcwd()). -/
def parseInitArgs (cwd args : String) : ParsedArgs :=
  ParsedArgs.init (if args = "" then cwd else args) (pyContains args "--bare")

/-- GitCommandParser._parse_clone.  Note: _extract_option is called WITHOUT
is_valued=True, so depth and branch come back as presence booleans. -/
def parseCloneArgs (args : String) : ParsedArgs :=
  let parts := pyWords args
  let repoUrl := parts.headD ""
  let dest0 := if parts.length > 1 then parts.getD 1 "" else pyBasename (pyRstripSlash repoUrl)
  let dest := if pyEndsWith dest0 ".git" then String.mk (dest0.data.take (dest0.data.length - 4)) else dest0
  ParsedArgs.clone repoUrl dest (extractOption args "--depth" false)
    (pyOr (extractOption args "--branch" false) (extractOption args "-b" false))

/-- The branch-name loop of _parse_branch: first non-flag token whose predecessor is not
one of -b, -m, -M (prev = none encodes index 0). -/
def findBranchName (prev : Option String) : List String → Option String
  | [] => none
  | p :: r =>
    if !(pyStartsWith p "-") &&
        (match prev with
         | none => true
         | some q => !((["-b", "-m", "-M"] : List String).contains q)) then
      some p
    else findBranchName (some p) r

/-- GitCommandParser._parse_branch. -/
def parseBranchArgs (args : String) : ParsedArgs :=
  let parts := pyWords args
  ParsedArgs.branch
    (parts.isEmpty || pyStartsWith (parts.headD "") "-")
    (parts.contains "-d" || parts.contains "-D")
    (findBranchName none parts)

/-- The branch/file loop of _parse_checkout, returning (branch_name, is_file). -/
def checkoutScan (fs : String → Bool) (prev : Option String) :
    List String → Option String × Bool
  | [] => (none, false)
  | p :: r =>
    if pyStartsWith p "-" then checkoutScan fs (some p) r
    else if prev = some "-b" then (some p, false)
    else (some p, fs p && !(fs (pyJoin (pyJoin (pyJoin ".git" "refs") "heads") p)))

/-- GitCommandParser._parse_checkout (os.path.exists injected as fs). -/
def parseCheckoutArgs (fs : String → Bool) (args : String) : ParsedArgs :=
  let parts := pyWords args
  let scan := checkoutScan fs none parts
  ParsedArgs.checkout scan.1 (parts.contains "-b") scan.2

/-- GitCommandParser._parse_add. -/
def parseAddArgs (args : String) : ParsedArgs :=
  ParsedArgs.add (if args = "" then ["."] else pyWords args)
    (pyStrip args = "." || pyStrip args = "-A" || pyStrip args = "--all")

/-- GitCommandParser._parse_commit. -/
def parseCommitArgs (args : String) : ParsedArgs :=
  let msg0 := extractOption args "-m" true
  let msg :=
    if !(pyTruthy msg0) && pyContains args "--message=" then
      match searchDelim ("--message=\"").data '"' args.data with
      | some b => PyOpt.str (String.mk b)
      | none =>
        match searchDelim ("--message=\x27").data '\x27' args.data with
        | some b => PyOpt.str (String.mk b)
        | none => msg0
    else msg0
  ParsedArgs.commit msg (pyContains args "--amend")
    (pyContains args "-a" || pyContains args "--all")

/-- GitCommandParser._parse_merge. -/
def parseMergeArgs (args : String) : ParsedArgs :=
  let parts := pyWords args
  ParsedArgs.merge
    (if !parts.isEmpty && !(pyStartsWith (parts.headD "") "-") then some (parts.headD "") else none)
    (pyContains args "--no-ff") (pyContains args "--ff-only") (pyContains args "--squash")

/-- The remote/branch loop shared by _parse_push and _parse_pull: the break sits inside
the non-flag test, so only the first non-flag token is ever assigned (to remote) and
branch is always left None. -/
def firstNonFlag : List String → Option String
  | [] => none
  | p :: r => if pyStartsWith p "-" then firstNonFlag r else some p

/-- GitCommandParser._parse_push. -/
def parsePushArgs (args : String) : ParsedArgs :=
  ParsedArgs.push ((firstNonFlag (pyWords args)).getD "origin") none
    (pyContains args "-f" || pyContains args "--force") (pyContains args "--all")

/-- GitCommandParser._parse_pull. -/
def parsePullArgs (args : String) : ParsedArgs :=
  ParsedArgs.pull ((firstNonFlag (pyWords args)).getD "origin") none
    (pyContains args "--rebase")

def dispatchParse (fs : String → Bool) (cwd ty args : String) : ParsedArgs :=
  if ty = "init" then parseInitArgs cwd args
  else if ty = "clone" then parseCloneArgs args
  else if ty = "branch" then parseBranchArgs args
  else if ty = "checkout" then parseCheckoutArgs fs args
  else if ty = "add" then parseAddArgs args
  else if ty = "commit" then parseCommitArgs args
  else if ty = "merge" then parseMergeArgs args
  else if ty = "push" then parsePushArgs args
  else if ty = "pull" then parsePullArgs args
  else ParsedArgs.empty

/-- The dict returned by GitCommandParser.parse_command. -/
structure ParseResult where
  command : String
  type : Option String
  args : Option String
  description : Option String
  repository : Option String
  parsed_args : ParsedArgs
deriving DecidableEq

/-- GitCommandParser.parse_command (the Classifier's classify). -/
def pyParseCommand (fs : String → Bool) (cwd command : String) : Option ParseResult :=
  if pyStartsWith command "git " = false then none
  else
    let desc := gitCmdDescription command
    match findPat command gitCmdPats with
    | none =>
      some { command := pyStrip command, type := none, args := none,
             description := desc, repository := none, parsed_args := ParsedArgs.empty }
    | some (ty, g) =>
      let args := pyStrip g
      some { command := pyStrip command, type := some ty, args := some args,
             description := desc, repository := none,
             parsed_args := dispatchParse fs cwd ty args }

/-! ## git_analyzer.py: GitCommandAnalyzer -/

/-- Injected capability for the external git binary, the filesystem and the clock: each
field holds the captured stdout of one _run_git_command invocation (none for a non-zero
exit), os.path.exists, and datetime formatting. -/
structure GitEnv where
  logLast : String → Option String
  checkAttr : String → String → Option String
  showFile : String → String → String → Option String
  showStat : String → String → Option String
  remoteGetUrl : String → String → Option String
  lsRemoteHeads : String → String → String → Option String
  logBranch : String → String → Option String
  logRange : String → String → String → Option String
  showNameStatus : String → String → Option String
  revParseAbbrevHead : String → Option String
  revParseHead : String → Option String
  statusOut : String → Option String
  statusPorcelain : String → Option String
  fsExists : String → Bool
  isoOfTimestamp : Int → String
  nowIso : String
  formatIso : String → String

structure FileChange where
  filename : String
  change_type : String
  diff : Option String
deriving DecidableEq

structure Stats where
  files_changed : Nat
  insertions : Nat
  deletions : Nat
deriving DecidableEq

structure CommitResult where
  commit_hash : String
  author : String
  commit_date : String
  message : String
  files : List FileChange
  stats : Option Stats
deriving DecidableEq

/-- The dict stored in GitCommandAnalyzer._last_commit_info for one working directory. -/
structure StoredCommit where
  commit_hash : String
  message : String
  files : List FileChange
  stats : Option Stats
  timestamp : String
deriving DecidableEq

structure PushResult where
  remote : String
  remote_url : Option String
  branch : String
  commits : List CommitResult
  github_repo : Option String
  associated_commit : Option StoredCommit
deriving DecidableEq

structure MergeResult where
  source_branch : Option String
  target_branch : Option String
  has_conflict : Bool
deriving DecidableEq

structure PullResult where
  remote : String
  branch : Option String
  current_branch : Option String
  before_pull_commit : Option String
deriving DecidableEq

structure CheckoutResult where
  target : Option String
  is_branch : Bool
  create_branch : Bool
  previous_branch : Option String
deriving DecidableEq

structure RemoteResult where
  action : String
  name : Option String
  url : Option String
deriving DecidableEq

inductive Analysis where
  | commit (r : CommitResult)
  | push (r : PushResult)
  | merge (r : MergeResult)
  | pull (r : PullResult)
  | checkout (r : CheckoutResult)
  | add (files : List String)
  | remote (r : RemoteResult)
deriving DecidableEq

/-- GitCommandAnalyzer._last_commit_info: dict working_directory -> stored commit. -/
abbrev AState := List (String × StoredCommit)

/-- Python dict assignment d[k] = v (replace in place, else append). -/
def dictInsert (k : String) (v : StoredCommit) : AState → AState
  | [] => [(k, v)]
  | (k', v') :: rest => if k' = k then (k, v) :: rest else (k', v') :: dictInsert k v rest

/-- Python dict d.get(k) as an Option. -/
def dictGet (k : String) : AState → Option StoredCommit
  | [] => none
  | (k', v) :: rest => if k' = k then some v else dictGet k rest

/-- Truthiness of an optional string (Python: None and "" are falsy). -/
def optTruthy : Option String → Bool
  | some s => !(s = "")
  | none => false

/-- Python `a or b` on optional strings. -/
def pyOrOptStr (a b : Option String) : Option String :=
  if optTruthy a then a else b

/-- One attempt of re.search(r"-m\s+QBODYQ", cs) at the current position. -/
def tryDashMQuoted (q : Char) (cs : List Char) : Option (List Char) :=
  if ['-', 'm'].isPrefixOf cs then
    let r1 := cs.drop 2
    if (r1.takeWhile Char.isWhitespace).isEmpty then none
    else
      match r1.dropWhile Char.isWhitespace with
      | [] => none
      | c2 :: r2 =>
        if c2 = q then
          let body := r2.takeWhile (fun x => !(x = q))
          if (r2.dropWhile (fun x => !(x = q))).head? = some q then some body else none
        else none
  else none

def searchDashMQuoted (q : Char) : List Char → Option (List Char)
  | [] => none
  | c :: rest =>
    match tryDashMQuoted q (c :: rest) with
    | some m => some m
    | none => searchDashMQuoted q rest

/-- GitCommandAnalyzer._extract_commit_message: quoted -m body (double then single
quotes), else the stripped text between the first "-m" occurrence and the next one,
rejected when it starts with "-". -/
def extractCommitMessage (command : String) : Option String :=
  match searchDashMQuoted '"' command.data with
  | some m => some (String.mk m)
  | none =>
    match searchDashMQuoted '\x27' command.data with
    | some m => some (String.mk m)
    | none =>
      match (pySplitOn command "-m").get? 1 with
      | none => none
      | some p1 =>
        let mp := pyStrip p1
        if pyStartsWith mp "-" then none else some mp

/-- GitCommandAnalyzer._run_git_command(["git","check-attr",...]) + binary test of
_get_file_diff. -/
def isBinaryAttr (attr : Option String) : Bool :=
  match attr with
  | some a => !(a = "") && (pyContains a "binary: set" || pyContains a "diff: unset")
  | none => false

/-- GitCommandAnalyzer._get_file_diff. -/
def getFileDiff (env : GitEnv) (wd hash filename : String) : String :=
  if isBinaryAttr (env.checkAttr wd filename) then "[二进制文件，内容未显示]"
  else
    match env.showFile wd hash filename with
    | none => "[文件内容未能获取]"
    | some result =>
      if result.data.length > 2000 then
        String.intercalate "\n" ((pySplitOn result "\n").take 10) ++ "\n...\n[文件太大，只显示前10行]"
      else
        String.intercalate "\n" ((pySplitOn result "\n").take 10)

/-- GitCommandAnalyzer._get_commit_stats (none stands for the empty dict). -/
def getCommitStats (env : GitEnv) (wd hash : String) : Option Stats :=
  match env.showStat wd hash with
  | none => none
  | some result =>
    if result = "" then none
    else
      let lines := pySplitOn (pyStrip result) "\n"
      let last := lines.getLastD ""
      some
        { files_changed := if lines.length > 1 then lines.length - 1 else 0,
          insertions :=
            if pyContains last "insertion" then (findCountBefore (" insertion".data) last.data).getD 0
            else 0,
          deletions :=
            if pyContains last "deletion" then (findCountBefore (" deletion".data) last.data).getD 0
            else 0 }

/-- The change-type code map of analyze_commit / _get_pushed_commits. -/
def changeTypeMap (c : Char) : String :=
  if c = 'A' then "added"
  else if c = 'M' then "modified"
  else if c = 'D' then "deleted"
  else if c = 'R' then "renamed"
  else if c = 'C' then "copied"
  else "modified"

/-- The file loop of analyze_commit over the name-status lines; an empty change-type
field raises IndexError on change_type[0], aborting the whole analysis (none). -/
def parseChangedFiles (env : GitEnv) (wd hash : String) :
    List String → Option (List FileChange)
  | [] => some []
  | line :: rest =>
    if pyStrip line = "" then parseChangedFiles env wd hash rest
    else
      let cp := pySplitOn line "\t"
      if cp.length < 2 then parseChangedFiles env wd hash rest
      else
        match (cp.headD "").data with
        | [] => none
        | c0 :: _ =>
          let ct := changeTypeMap c0
          let fn := cp.getD 1 ""
          let fc : FileChange :=
            if ct = "added" || ct = "modified" then
              let d := getFileDiff env wd hash fn
              { filename := fn, change_type := ct, diff := if d = "" then none else some d }
            else { filename := fn, change_type := ct, diff := none }
          (parseChangedFiles env wd hash rest).map (fun l => fc :: l)

/-- GitCommandAnalyzer.analyze_commit. -/
def analyzeCommit (env : GitEnv) (command wd : String) : Option CommitResult :=
  if env.fsExists wd = false then none
  else
    let commitMsg := extractCommitMessage command
    match env.logLast wd with
    | none => none
    | some result =>
      if result = "" then none
      else
        let lines := pySplitOn (pyStrip result) "\n"
        if lines.isEmpty then none
        else
          let commitInfo := pySplitOn (lines.headD "") "|"
          if commitInfo.length < 5 then none
          else
            let hash := commitInfo.headD ""
            match parseChangedFiles env wd hash (lines.drop 1) with
            | none => none
            | some files =>
              match pyToInt (commitInfo.getD 3 "") with
              | none => none
              | some t =>
                some
                  { commit_hash := hash,
                    author := commitInfo.getD 1 "" ++ " <" ++ commitInfo.getD 2 "" ++ ">",
                    commit_date := env.isoOfTimestamp t,
                    message :=
                      match commitMsg with
                      | some m => if m = "" then commitInfo.getD 4 "" else m
                      | none => commitInfo.getD 4 "",
                    files := files,
                    stats := getCommitStats env wd hash }

/-- The per-commit file loop of _get_pushed_commits (no diff field; an empty change-type
field raises inside the per-commit try and skips that commit). -/
def parseNameStatusLines : List String → Option (List FileChange)
  | [] => some []
  | line :: rest =>
    if pyStrip line = "" then parseNameStatusLines rest
    else
      let fp := pySplitOn line "\t"
      if fp.length < 2 then parseNameStatusLines rest
      else
        match (fp.headD "").data with
        | [] => none
        | c0 :: _ =>
          (parseNameStatusLines rest).map
            (fun l => { filename := fp.getD 1 "", change_type := changeTypeMap c0, diff := none } :: l)

/-- One commit line of _get_pushed_commits (none = skipped by continue). -/
def parsePushedCommit (env : GitEnv) (wd line : String) : Option CommitResult :=
  let parts := pySplitOn line "|"
  if parts.length < 5 then none
  else
    match pyToInt (parts.getD 3 "") with
    | none => none
    | some t =>
      let hash := parts.headD ""
      let filesRes :=
        match env.showNameStatus wd hash with
        | none => some []
        | some fr =>
          if fr = "" then some []
          else parseNameStatusLines (pySplitOn (pyStrip fr) "\n")
      match filesRes with
      | none => none
      | some files =>
        some
          { commit_hash := hash,
            author := parts.getD 1 "" ++ " <" ++ parts.getD 2 "" ++ ">",
            commit_date := env.isoOfTimestamp t,
            message := parts.getD 4 "",
            files := files,
            stats := getCommitStats env wd hash }

def parsePushList (env : GitEnv) (wd : String) : List String → List CommitResult
  | [] => []
  | line :: rest =>
    if pyStrip line = "" then parsePushList env wd rest
    else
      match parsePushedCommit env wd line with
      | some c => c :: parsePushList env wd rest
      | none => parsePushList env wd rest

/-- GitCommandAnalyzer._get_pushed_commits. -/
def getPushedCommits (env : GitEnv) (wd remote branch : String) : List CommitResult :=
  let remoteExists := env.lsRemoteHeads wd remote branch
  let result :=
    if optTruthy remoteExists = false then env.logBranch wd branch
    else env.logRange wd remote branch
  match result with
  | none => []
  | some res =>
    if pyStrip res = "" then []
    else parsePushList env wd (pySplitOn (pyStrip res) "\n")

/-- One attempt of the GitHub-URL group extraction after the literal pattern head. -/
def ghGroups (cs : List Char) : Option (String × String) :=
  let g1 := cs.takeWhile (fun c => !(c = '/'))
  if g1.isEmpty then none
  else
    match cs.dropWhile (fun c => !(c = '/')) with
    | '/' :: r2 =>
      let g2 := r2.takeWhile (fun c => !(c = '/' || c = '.'))
      if g2.isEmpty then none else some (String.mk g1, String.mk g2)
    | _ => none

/-- re.search of one github_patterns entry: scan for the literal head, then user and
repo groups. -/
def ghSearch (head : List Char) : List Char → Option (String × String)
  | [] => none
  | c :: rest =>
    match (if head.isPrefixOf (c :: rest) then ghGroups ((c :: rest).drop head.length) else none) with
    | some g => some g
    | none => ghSearch head rest

/-- GitCommandAnalyzer._extract_github_repo. -/
def extractGithubRepo (remoteUrl : Option String) : Option String :=
  match remoteUrl with
  | none => none
  | some u =>
    if u = "" then none
    else
      match ghSearch ("https://github.com/").data u.data with
      | some g => some ("https://github.com/" ++ g.1 ++ "/" ++ g.2)
      | none =>
        match ghSearch ("git@github.com:").data u.data with
        | some g => some ("https://github.com/" ++ g.1 ++ "/" ++ g.2)
        | none => none

/-- GitCommandAnalyzer._get_current_branch (.strip() on None raises, caught -> None). -/
def getCurrentBranch (env : GitEnv) (wd : String) : Option String :=
  (env.revParseAbbrevHead wd).map pyStrip

/-- GitCommandAnalyzer._get_current_commit_hash. -/
def getCurrentCommitHash (env : GitEnv) (wd : String) : Option String :=
  (env.revParseHead wd).map pyStrip

/-- GitCommandAnalyzer._check_merge_conflict. -/
def checkMergeConflict (env : GitEnv) (wd : String) : Bool :=
  match env.statusOut wd with
  | some r => pyContains r "Unmerged paths"
  | none => false

/-- GitCommandAnalyzer.analyze_push.  The ordered field extraction of the source:
remote/branch from the tokens after "git push" with hard-coded defaults "origin" and
"master", then remote URL, GitHub link, pushed commits, and the correlation read
_last_commit_info.get(working_directory, {}) which is never removed. -/
def analyzePush (env : GitEnv) (st : AState) (command wd : String) : PushResult :=
  let args := (pyWords command).drop 2
  let remote :=
    match args.get? 0 with
    | some a0 => if pyStartsWith a0 "-" then "origin" else a0
    | none => "origin"
  let branch :=
    match args.get? 1 with
    | some a1 => if pyStartsWith a1 "-" then "master" else a1
    | none => "master"
  let remoteUrl := env.remoteGetUrl wd remote
  { remote := remote,
    remote_url := remoteUrl,
    branch := branch,
    commits := getPushedCommits env wd remote branch,
    github_repo := extractGithubRepo remoteUrl,
    associated_commit := dictGet wd st }

/-- GitCommandAnalyzer.analyze_merge. -/
def analyzeMerge (env : GitEnv) (command wd : String) : MergeResult :=
  { source_branch := (pyWords command).get? 2,
    target_branch := getCurrentBranch env wd,
    has_conflict := checkMergeConflict env wd }

/-- GitCommandAnalyzer.analyze_pull. -/
def analyzePull (env : GitEnv) (command wd : String) : PullResult :=
  let args := (pyWords command).drop 2
  let remote :=
    match args.get? 0 with
    | some a0 => if pyStartsWith a0 "-" then "origin" else a0
    | none => "origin"
  let branchArg :=
    match args.get? 1 with
    | some a1 => if pyStartsWith a1 "-" then none else some a1
    | none => none
  let current := getCurrentBranch env wd
  { remote := remote,
    branch := pyOrOptStr branchArg current,
    current_branch := current,
    before_pull_commit := getCurrentCommitHash env wd }

/-- GitCommandAnalyzer.analyze_checkout. -/
def analyzeCheckout (env : GitEnv) (command wd : String) : CheckoutResult :=
  let parts := pyWords command
  let target := parts.get? 2
  { target := target,
    is_branch :=
      match target with
      | some t => if optTruthy (some t) && env.fsExists (pyJoin wd t) then false else true
      | none => true,
    create_branch := parts.contains "-b",
    previous_branch := getCurrentBranch env wd }

/-- The status --porcelain loop of analyze_add. -/
def porcelainAdded : List String → List String
  | [] => []
  | line :: rest =>
    if pyStrip line = "" then porcelainAdded rest
    else
      let status := pyStrip (String.mk (line.data.take 2))
      let filePath := pyStrip (String.mk (line.data.drop 3))
      if (status = "A" || status = "M" || status = "??") && !(filePath = "") then
        filePath :: porcelainAdded rest
      else porcelainAdded rest

def addedForPatterns (env : GitEnv) (wd : String) : List String → List String
  | [] => []
  | pat :: rest =>
    (if pat = "." || pat = "-A" || pat = "--all" then
      match env.statusPorcelain wd with
      | some res =>
        if res = "" then [] else porcelainAdded (pySplitOn (pyStrip res) "\n")
      | none => []
    else if env.fsExists (pyJoin wd pat) then [pat] else [])
      ++ addedForPatterns env wd rest

/-- GitCommandAnalyzer.analyze_add. -/
def analyzeAdd (env : GitEnv) (command wd : String) : List String :=
  let parts := pyWords command
  let files := if parts.length > 2 then parts.drop 2 else ["."]
  addedForPatterns env wd files

/-- GitCommandAnalyzer.analyze_remote. -/
def analyzeRemote (command : String) : RemoteResult :=
  let parts := pyWords command
  if parts.length < 3 then { action := "list", name := none, url := none }
  else
    let action := parts.getD 2 ""
    if action = "add" && parts.length ≥ 5 then
      { action := "add", name := parts.get? 3, url := parts.get? 4 }
    else if action = "set-url" && parts.length ≥ 5 then
      { action := "set-url", name := parts.get? 3, url := parts.get? 4 }
    else if action = "remove" && parts.length ≥ 4 then
      { action := "remove", name := parts.get? 3, url := none }
    else { action := action, name := none, url := none }

/-- The dict stored into _last_commit_info after a successful commit analysis. -/
def storedOfCommit (env : GitEnv) (r : CommitResult) : StoredCommit :=
  { commit_hash := r.commit_hash,
    message := r.message,
    files := r.files,
    stats := r.stats,
    timestamp := env.nowIso }

/-- GitCommandAnalyzer.analyze_command: dispatch on the second token; a successful
commit analysis is stored into _last_commit_info keyed by the working directory. -/
def analyzeCommand (env : GitEnv) (st : AState) (command wd : String) :
    AState × Option Analysis :=
  match pyWords command with
  | p0 :: sub :: _ =>
    if p0 = "git" then
      if sub = "commit" then
        match analyzeCommit env command wd with
        | some r => (dictInsert wd (storedOfCommit env r) st, some (Analysis.commit r))
        | none => (st, none)
      else if sub = "push" then (st, some (Analysis.push (analyzePush env st command wd)))
      else if sub = "merge" then (st, some (Analysis.merge (analyzeMerge env command wd)))
      else if sub = "pull" then (st, some (Analysis.pull (analyzePull env command wd)))
      else if sub = "checkout" then (st, some (Analysis.checkout (analyzeCheckout env command wd)))
      else if sub = "add" then (st, some (Analysis.add (analyzeAdd env command wd)))
      else if pyStartsWith sub "remote" then (st, some (Analysis.remote (analyzeRemote command)))
      else (st, none)
    else (st, none)
  | _ => (st, none)

/-! ## monitor.py: GitOperationMonitor -/

/-- utils.is_ignored_command: prefix match against the ignore list. -/
def isIgnoredCommand (command : String) (ignoredList : List String) : Bool :=
  ignoredList.any (fun ig => pyStartsWith command ig)

/-- State of one GitOperationMonitor instance: the config-derived attributes of
__init__ plus the mutable processed-PID set, the cleanup clock and the embedded
analyzer's correlation dict. -/
structure MonitorState where
  hostname : String
  storagePath : String
  monitorInterval : Int
  pidCacheTtl : Int
  ignoredCommands : List String
  processedPids : Finset Nat
  lastCacheCleanup : Int
  lastCommitInfo : AState
deriving DecidableEq

/-- The config dict consumed by GitOperationMonitor.__init__ (config.get with
defaults). -/
structure ConfigInput where
  storage_path : Option String
  monitor_interval : Option Int
  ignored_commands : Option (List String)
  pid_cache_ttl : Option Int
  hostname : String

/-- GitOperationMonitor.__init__ at time `now` (self.last_cache_cleanup = time.time()). -/
def initMonitor (cfg : ConfigInput) (now : Int) : MonitorState :=
  { hostname := cfg.hostname,
    storagePath := cfg.storage_path.getD "./data",
    monitorInterval := cfg.monitor_interval.getD 1,
    pidCacheTtl := cfg.pid_cache_ttl.getD 300,
    ignoredCommands := cfg.ignored_commands.getD ["git status", "git diff"],
    processedPids := ∅,
    lastCacheCleanup := now,
    lastCommitInfo := [] }

/-- One successfully-read candidate process observed by a scan tick: the psutil fields
_record_git_command reads, the capability for the git queries its analysis performs, and
the datetime.now().isoformat() taken when the record is created. -/
structure ProcObs where
  pid : Nat
  cmdline : List String
  cwd : String
  username : String
  status : String
  env : GitEnv
  timestamp : String

/-- The record dict passed to save_command_record (the Recorder boundary). -/
structure Record where
  timestamp : String
  command : String
  working_directory : String
  username : String
  hostname : String
  pid : Nat
  status : String
  analysis : Option Analysis
  github_record : Option String
  description : Option String
deriving DecidableEq

/-- GitOperationMonitor._should_format_github_record. -/
def shouldFormatGithub : Analysis → Bool
  | .push r => optTruthy r.github_repo
  | _ => false

/-- GitOperationMonitor._format_github_record; when associated_commit is None the
source calls .get on None, raising AttributeError (modelled as error), which the inner
try of _record_git_command catches. -/
def formatGithubAttempt (env : GitEnv) (timestamp : String) :
    Analysis → Except Unit (Option String)
  | .push r =>
    if optTruthy r.github_repo = false then .ok none
    else
      match r.associated_commit with
      | none => .error ()
      | some st =>
        let ft := env.formatIso timestamp
        let g := r.github_repo.getD ""
        let m := st.message
        .ok (some s!"{ft} 修改了@{g}，{m}")
  | _ => .ok none

/-- The human-readable description block of _record_git_command. -/
def buildDescription : Analysis → Option String
  | .commit r =>
    let filesChanged := r.files.length
    let ins := match r.stats with | some s => s.insertions | none => 0
    let del := match r.stats with | some s => s.deletions | none => 0
    let msg := r.message
    some s!"提交了 {filesChanged} 个文件 (+{ins}/-{del}): {msg}"
  | .push r =>
    let n := r.commits.length
    let rem := r.remote
    let br := r.branch
    let d0 := s!"推送 {n} 个提交到 {rem}/{br}"
    let d1 :=
      match r.github_repo with
      | some g => if g = "" then d0 else d0 ++ s!" ({g})"
      | none => d0
    let d2 :=
      match r.associated_commit with
      | some st => if st.message = "" then d1 else (let m := st.message; d1 ++ s!"\n最近提交: {m}")
      | none => d1
    let d3 :=
      if r.commits.isEmpty then d2
      else
        let fc := (r.commits.map (fun c => c.files.length)).sum
        d2 ++ s!", 总计修改 {fc} 个文件"
    some d3
  | _ => none

/-- The github_record / description enrichment of _record_git_command; an exception in
_format_github_record aborts the rest of the enrichment block. -/
def recordExtras (env : GitEnv) (timestamp : String) (a : Analysis) :
    Option String × Option String :=
  if shouldFormatGithub a then
    match formatGithubAttempt env timestamp a with
    | .error _ => (none, none)
    | .ok gr => (gr, buildDescription a)
  else (none, buildDescription a)

def buildRecord (s : MonitorState) (o : ProcObs) (cmdLine : String)
    (analysisRes : Option Analysis) : Record :=
  match analysisRes with
  | none =>
    { timestamp := o.timestamp, command := cmdLine, working_directory := o.cwd,
      username := o.username, hostname := s.hostname, pid := o.pid, status := o.status,
      analysis := none, github_record := none, description := none }
  | some a =>
    let extras := recordExtras o.env o.timestamp a
    { timestamp := o.timestamp, command := cmdLine, working_directory := o.cwd,
      username := o.username, hostname := s.hostname, pid := o.pid, status := o.status,
      analysis := some a, github_record := extras.1, description := extras.2 }

/-- GitOperationMonitor._record_git_command: the admission gate on processed_pids, the
ignore-list gate, analysis, record construction, and insertion of the PID into
processed_pids after the record is saved. -/
def recordGitCommand (s : MonitorState) (o : ProcObs) : MonitorState × Option Record :=
  if o.pid ∈ s.processedPids then (s, none)
  else
    let cmdLine := String.intercalate " " o.cmdline
    if isIgnoredCommand cmdLine s.ignoredCommands then (s, none)
    else
      let res := analyzeCommand o.env s.lastCommitInfo cmdLine o.cwd
      ({ s with lastCommitInfo := res.1, processedPids := insert o.pid s.processedPids },
        some (buildRecord s o cmdLine res.2))

/-- A sequence of _record_git_command calls, collecting every record passed to the
Recorder. -/
def runRecords (s : MonitorState) : List ProcObs → MonitorState × List Record
  | [] => (s, [])
  | o :: rest =>
    let r1 := recordGitCommand s o
    let r2 := runRecords r1.1 rest
    (r2.1, (match r1.2 with | some r => [r] | none => []) ++ r2.2)

/-- Outcome of one _cleanup_pid_cache call, mirroring its three exits: returned early on
the 60-second gate, swept (removing n dead PIDs), or caught a process-enumeration
exception (which the source logs). -/
inductive CleanupOutcome where
  | skipped
  | cleaned (n : Nat)
  | enumFailed
deriving DecidableEq

/-- GitOperationMonitor._cleanup_pid_cache at time `now`; `enum` is the outcome of the
psutil.process_iter enumeration (error = any exception while building active_pids).
The 60-second cadence constant is hard-coded in the source; self.pid_cache_ttl is not
consulted. -/
def cleanupPidCache (s : MonitorState) (now : Int) (enum : Except Unit (Finset Nat)) :
    MonitorState × CleanupOutcome :=
  if now - s.lastCacheCleanup < 60 then (s, .skipped)
  else
    let s1 := { s with lastCacheCleanup := now }
    match enum with
    | .error _ => (s1, .enumFailed)
    | .ok active =>
      let expired := s1.processedPids \ active
      if expired = ∅ then (s1, .cleaned 0)
      else ({ s1 with processedPids := s1.processedPids \ expired }, .cleaned expired.card)

/-- One analyze_command invocation in a trace (C4's intervening commands). -/
structure AnalyzerStep where
  env : GitEnv
  cmd : String
  wd : String

def runAnalyzer (st : AState) (steps : List AnalyzerStep) : AState :=
  steps.foldl (fun st s => (analyzeCommand s.env st s.cmd s.wd).1) st

/-- Whether a step is a commit command in working directory `wd`. -/
def stepIsCommitAt (wd : String) (s : AnalyzerStep) : Bool :=
  ((pyWords s.cmd).get? 1 == some "commit") && (s.wd == wd)

/-! ## Claims about the Classifier (parser.py) -/

/-- Helper: parse_command always stores the stripped raw command in the result's
command field. -/
theorem parseResult_command (fs : String → Bool) (cwd c : String) (d : ParseResult)
    (h : pyParseCommand fs cwd c = some d) : d.command = pyStrip c := by
  unfold pyParseCommand at h
  split at h
  · exact absurd h (by simp)
  · split at h
    · simp only [Option.some.injEq] at h
      subst h
      rfl
    · simp only [Option.some.injEq] at h
      subst h
      rfl

/-- Claim C5 (counterexample): classify("git commit -m \"fix bug\"") does NOT produce
message = "fix bug"; _extract_option's regex -m[= ]([^\s]+) stops at the first
whitespace and keeps the opening quote. -/
theorem classify_commit_message_cex :
    ¬ ((pyParseCommand (fun _ => false) "" "git commit -m \"fix bug\"").map
        ParseResult.parsed_args
      = some (ParsedArgs.commit (PyOpt.str "fix bug") false false)) := by decide

/-- Claim C5 (amended): classify("git commit -m \"fix bug\"") yields kind = commit with
message = "\"fix" (the first whitespace-delimited token after -m, opening quote
included), amend = false and all = false. -/
theorem classify_commit_message_actual :
    (pyParseCommand (fun _ => false) "" "git commit -m \"fix bug\"").map ParseResult.type
      = some (some "commit") ∧
    (pyParseCommand (fun _ => false) "" "git commit -m \"fix bug\"").map
        ParseResult.parsed_args
      = some (ParsedArgs.commit (PyOpt.str "\"fix") false false) := by
  exact ⟨by decide, by decide⟩

/-- Claim C6: on "git clone https://host/u/r.git dest --depth 1 --branch main" the code
yields the claimed repository_url and destination, but because _parse_clone calls
_extract_option without is_valued=True, depth and branch are the presence booleans True,
not the values "1" and "main" expected by the claim and by tests/test_parser.py. -/
theorem classify_clone_eval :
    (pyParseCommand (fun _ => false) ""
        "git clone https://host/u/r.git dest --depth 1 --branch main").map
        ParseResult.parsed_args
      = some (ParsedArgs.clone "https://host/u/r.git" "dest" (PyOpt.bool true)
          (PyOpt.bool true)) ∧
    ¬ ((pyParseCommand (fun _ => false) ""
        "git clone https://host/u/r.git dest --depth 1 --branch main").map
        ParseResult.parsed_args
      = some (ParsedArgs.clone "https://host/u/r.git" "dest" (PyOpt.str "1")
          (PyOpt.str "main"))) := by
  exact ⟨by decide, by decide⟩

/-- Claim C7 (counterexample): "git push " (trailing space) classifies as kind push, but
its stored raw_text is the stripped "git push", which re-classifies with kind None (the
push pattern requires whitespace after "push"), so the round trip does not preserve the
kind. -/
theorem classify_roundtrip_cex :
    (pyParseCommand (fun _ => false) "" "git push ").map ParseResult.type
      = some (some "push") ∧
    (pyParseCommand (fun _ => false) "" "git push ").map ParseResult.command
      = some "git push" ∧
    (pyParseCommand (fun _ => false) "" "git push").map ParseResult.type
      = some none := by
  exact ⟨by decide, by decide, by decide⟩

/-- Claim C7 (amended): for any raw command equal to its own stripped form, re-feeding
the produced descriptor's raw_text into classify yields a descriptor with identical
kind. -/
theorem classify_roundtrip_kind_trimmed :
    ∀ (fs : String → Bool) (cwd command : String) (d : ParseResult),
      pyStrip command = command →
      pyParseCommand fs cwd command = some d →
      ∃ d', pyParseCommand fs cwd d.command = some d' ∧ d'.type = d.type := by
  intro fs cwd command d htrim h
  have hc : d.command = pyStrip command := parseResult_command fs cwd command d h
  exact ⟨d, by rw [hc, htrim, h], rfl⟩

def defaultParseResult : ParseResult :=
  { command := "", type := none, args := none, description := none, repository := none,
    parsed_args := ParsedArgs.empty }

/-- Witness for the amended C7 round-trip theorem at "git push origin". -/
theorem classify_roundtrip_kind_witness :
    ∃ d', pyParseCommand (fun _ => false) ""
        (((pyParseCommand (fun _ => false) "" "git push origin").getD
          defaultParseResult).command) = some d' ∧
      d'.type = ((pyParseCommand (fun _ => false) "" "git push origin").getD
          defaultParseResult).type :=
  classify_roundtrip_kind_trimmed (fun _ => false) "" "git push origin"
    ((pyParseCommand (fun _ => false) "" "git push origin").getD defaultParseResult)
    (by decide) (by decide)

/-! ## Claims about the Analyzer (git_analyzer.py) -/

def trivialEnv : GitEnv :=
  { logLast := fun _ => none, checkAttr := fun _ _ => none, showFile := fun _ _ _ => none,
    showStat := fun _ _ => none, remoteGetUrl := fun _ _ => none,
    lsRemoteHeads := fun _ _ _ => none, logBranch := fun _ _ => none,
    logRange := fun _ _ _ => none, showNameStatus := fun _ _ => none,
    revParseAbbrevHead := fun _ => none, revParseHead := fun _ => none,
    statusOut := fun _ => none, statusPorcelain := fun _ => none,
    fsExists := fun _ => false, isoOfTimestamp := fun _ => "", nowIso := "",
    formatIso := fun s => s }

theorem dictGet_insert_self (k : String) (v : StoredCommit) (st : AState) :
    dictGet k (dictInsert k v st) = some v := by
  induction st with
  | nil => simp [dictInsert, dictGet]
  | cons p rest ih =>
    by_cases h : p.1 = k
    · simp [dictInsert, dictGet, h]
    · simp [dictInsert, dictGet, h, ih]

theorem dictGet_insert_ne (k k' : String) (h : k ≠ k') (v : StoredCommit) (st : AState) :
    dictGet k (dictInsert k' v st) = dictGet k st := by
  induction st with
  | nil => simp [dictInsert, dictGet, Ne.symm h]
  | cons p rest ih =>
    by_cases ha : p.1 = k'
    · simp [dictInsert, dictGet, ha, Ne.symm h]
    · by_cases hb : p.1 = k
      · simp [dictInsert, dictGet, ha, hb, h]
      · simp [dictInsert, dictGet, ha, hb, ih]

/-- Helper: analyze_command on a successfully analyzed commit stores the commit into
_last_commit_info under the working directory and returns the commit analysis. -/
theorem analyzeCommand_commit_eq (env : GitEnv) (st : AState) (cmd wd : String)
    (rest : List String) (r : CommitResult)
    (hw : pyWords cmd = "git" :: "commit" :: rest)
    (hr : analyzeCommit env cmd wd = some r) :
    analyzeCommand env st cmd wd
      = (dictInsert wd (storedOfCommit env r) st, some (Analysis.commit r)) := by
  unfold analyzeCommand
  rw [hw]
  simp [hr]

/-- Helper: analyze_command on a push leaves _last_commit_info untouched and returns
the push analysis. -/
theorem analyzeCommand_push_eq (env : GitEnv) (st : AState) (cmd wd : String)
    (rest : List String) (hw : pyWords cmd = "git" :: "push" :: rest) :
    analyzeCommand env st cmd wd
      = (st, some (Analysis.push (analyzePush env st cmd wd))) := by
  unfold analyzeCommand
  rw [hw]
  simp

/-- Helper: a step that is not a commit command in `wd` does not change what
_last_commit_info stores for `wd`. -/
theorem analyzeCommand_preserves_dictGet (wd : String) (s : AnalyzerStep) (st : AState)
    (h : stepIsCommitAt wd s = false) :
    dictGet wd (analyzeCommand s.env st s.cmd s.wd).1 = dictGet wd st := by
  unfold analyzeCommand
  rcases hw : pyWords s.cmd with _ | ⟨p0, _ | ⟨sub, rest⟩⟩
  · rfl
  · rfl
  · by_cases h0 : p0 = "git"
    · subst h0
      by_cases hc : sub = "commit"
      · subst hc
        have hwd : s.wd ≠ wd := by
          intro he
          rw [stepIsCommitAt, hw, he] at h
          simp at h
        cases hr : analyzeCommit s.env s.cmd s.wd with
        | none => simp [hr]
        | some r => simp [hr, dictGet_insert_ne wd s.wd (Ne.symm hwd)]
      · simp [hc]
        split_ifs <;> rfl
    · simp [h0]

/-- Helper: a run of steps none of which is a commit in `wd` preserves the stored
correlation entry for `wd`. -/
theorem runAnalyzer_preserves_dictGet (wd : String) (steps : List AnalyzerStep) :
    ∀ st : AState, (∀ s ∈ steps, stepIsCommitAt wd s = false) →
      dictGet wd (runAnalyzer st steps) = dictGet wd st := by
  induction steps with
  | nil => intro st _; rfl
  | cons s rest ih =>
    intro st h
    have h1 : dictGet wd (runAnalyzer (analyzeCommand s.env st s.cmd s.wd).1 rest)
        = dictGet wd (analyzeCommand s.env st s.cmd s.wd).1 :=
      ih _ (fun x hx => h x (List.mem_cons_of_mem s hx))
    have h2 := analyzeCommand_preserves_dictGet wd s st (h s (List.mem_cons_self s rest))
    calc dictGet wd (runAnalyzer st (s :: rest))
        = dictGet wd (runAnalyzer (analyzeCommand s.env st s.cmd s.wd).1 rest) := rfl
      _ = dictGet wd st := by rw [h1, h2]

/-- Claim C4: a push analyzed in a working directory after a successfully analyzed
commit in the same directory (with no intervening commit there) carries
associated_commit equal to the stored commit entry, whose hash and message are the
commit analysis's own, and the push reads the correlation entry without removing it
(the analyzer state is unchanged). -/
theorem commit_push_association :
    ∀ (env1 : GitEnv) (st0 : AState) (cmdC wd : String) (restC : List String)
      (r : CommitResult),
      pyWords cmdC = "git" :: "commit" :: restC →
      analyzeCommit env1 cmdC wd = some r →
      ∀ steps : List AnalyzerStep,
        (∀ s ∈ steps, stepIsCommitAt wd s = false) →
        ∀ (env2 : GitEnv) (cmdP : String) (restP : List String),
          pyWords cmdP = "git" :: "push" :: restP →
          (analyzeCommand env2 (runAnalyzer (analyzeCommand env1 st0 cmdC wd).1 steps)
              cmdP wd).1
            = runAnalyzer (analyzeCommand env1 st0 cmdC wd).1 steps ∧
          (analyzeCommand env2 (runAnalyzer (analyzeCommand env1 st0 cmdC wd).1 steps)
              cmdP wd).2
            = some (Analysis.push (analyzePush env2
                (runAnalyzer (analyzeCommand env1 st0 cmdC wd).1 steps) cmdP wd)) ∧
          (analyzePush env2 (runAnalyzer (analyzeCommand env1 st0 cmdC wd).1 steps)
              cmdP wd).associated_commit
            = some (storedOfCommit env1 r) ∧
          (storedOfCommit env1 r).commit_hash = r.commit_hash ∧
          (storedOfCommit env1 r).message = r.message := by
  intro env1 st0 cmdC wd restC r hwC hr steps hsteps env2 cmdP restP hwP
  have hpush := analyzeCommand_push_eq env2
    (runAnalyzer (analyzeCommand env1 st0 cmdC wd).1 steps) cmdP wd restP hwP
  have h1 : (analyzeCommand env1 st0 cmdC wd).1
      = dictInsert wd (storedOfCommit env1 r) st0 := by
    rw [analyzeCommand_commit_eq env1 st0 cmdC wd restC r hwC hr]
  have hget : dictGet wd (runAnalyzer (analyzeCommand env1 st0 cmdC wd).1 steps)
      = some (storedOfCommit env1 r) := by
    rw [runAnalyzer_preserves_dictGet wd steps _ hsteps, h1, dictGet_insert_self]
  refine ⟨by rw [hpush], by rw [hpush], ?_, rfl, rfl⟩
  show (analyzePush env2 (runAnalyzer (analyzeCommand env1 st0 cmdC wd).1 steps)
      cmdP wd).associated_commit = _
  unfold analyzePush
  exact hget

def c4env : GitEnv :=
  { trivialEnv with
    logLast := fun _ => some "abc|Alice|a@b|5|hello",
    fsExists := fun _ => true,
    nowIso := "now0",
    isoOfTimestamp := fun _ => "iso" }

def defaultCommitResult : CommitResult :=
  { commit_hash := "", author := "", commit_date := "", message := "", files := [],
    stats := none }

def c4r : CommitResult :=
  (analyzeCommit c4env "git commit -m hi" "/r").getD defaultCommitResult

/-- Witness for C4: a concrete commit followed immediately by a push in "/r". -/
theorem commit_push_association_witness :
    (analyzeCommand trivialEnv
        (runAnalyzer (analyzeCommand c4env [] "git commit -m hi" "/r").1 [])
        "git push" "/r").1
      = runAnalyzer (analyzeCommand c4env [] "git commit -m hi" "/r").1 [] ∧
    (analyzeCommand trivialEnv
        (runAnalyzer (analyzeCommand c4env [] "git commit -m hi" "/r").1 [])
        "git push" "/r").2
      = some (Analysis.push (analyzePush trivialEnv
          (runAnalyzer (analyzeCommand c4env [] "git commit -m hi" "/r").1 [])
          "git push" "/r")) ∧
    (analyzePush trivialEnv
        (runAnalyzer (analyzeCommand c4env [] "git commit -m hi" "/r").1 [])
        "git push" "/r").associated_commit
      = some (storedOfCommit c4env c4r) ∧
    (storedOfCommit c4env c4r).commit_hash = c4r.commit_hash ∧
    (storedOfCommit c4env c4r).message = c4r.message :=
  commit_push_association c4env [] "git commit -m hi" "/r" ["-m", "hi"] c4r
    (by decide) (by decide) [] (by simp) trivialEnv "git push" [] (by decide)

/-- Claim C10: a push command with no second argument token after "git push", or whose
second argument token begins with "-", is analyzed with the hard-coded branch
"master". -/
theorem push_branch_defaults_master :
    ∀ (env : GitEnv) (st : AState) (cmd wd : String) (rest : List String),
      pyWords cmd = "git" :: "push" :: rest →
      (∀ t, rest.get? 1 = some t → pyStartsWith t "-" = true) →
      (analyzePush env st cmd wd).branch = "master" := by
  intro env st cmd wd rest hw h
  unfold analyzePush
  simp only [hw, List.drop_succ_cons, List.drop_zero]
  cases h2 : rest.get? 1 with
  | none => simp [h2]
  | some t => simp [h2, h t h2]

/-- Witness for C10 at "git push origin --force". -/
theorem push_branch_defaults_master_witness :
    (analyzePush trivialEnv [] "git push origin --force" "/r").branch = "master" :=
  push_branch_defaults_master trivialEnv [] "git push origin --force" "/r"
    ["origin", "--force"] (by decide)
    (by intro t ht; injection ht with h; subst h; decide)

/-! ## Claims about the Scan Loop cache and eviction (monitor.py) -/

theorem buildRecord_pid (s : MonitorState) (o : ProcObs) (cl : String)
    (ar : Option Analysis) : (buildRecord s o cl ar).pid = o.pid := by
  cases ar <;> rfl

theorem buildRecord_command (s : MonitorState) (o : ProcObs) (cl : String)
    (ar : Option Analysis) : (buildRecord s o cl ar).command = cl := by
  cases ar <;> rfl

theorem recordGitCommand_ignored_pres (s : MonitorState) (o : ProcObs) :
    (recordGitCommand s o).1.ignoredCommands = s.ignoredCommands := by
  simp only [recordGitCommand]
  split_ifs <;> rfl

/-- Helper: every outcome of one _record_git_command call: either nothing is recorded
and the state is unchanged, or the PID was fresh, it is inserted, and exactly one
record carrying that PID and the non-ignored command line is produced. -/
theorem recordGitCommand_cases (s : MonitorState) (o : ProcObs) :
    recordGitCommand s o = (s, none) ∨
    (o.pid ∉ s.processedPids ∧
      (recordGitCommand s o).1.processedPids = insert o.pid s.processedPids ∧
      ∃ r, (recordGitCommand s o).2 = some r ∧ r.pid = o.pid ∧
        r.command = String.intercalate " " o.cmdline) := by
  simp only [recordGitCommand]
  split_ifs with h1 h2
  · exact Or.inl rfl
  · exact Or.inl rfl
  · exact Or.inr ⟨h1, rfl, buildRecord s o _ _, rfl,
      buildRecord_pid s o _ _, buildRecord_command s o _ _⟩

theorem recordGitCommand_record_not_ignored (s : MonitorState) (o : ProcObs)
    (r : Record) (h : (recordGitCommand s o).2 = some r) :
    isIgnoredCommand r.command s.ignoredCommands = false := by
  simp only [recordGitCommand] at h
  split_ifs at h with h1 h2
  · simp only [Option.some.injEq] at h
    rw [← h, buildRecord_command]
    simpa using h2

theorem runRecords_cons (s : MonitorState) (o : ProcObs) (rest : List ProcObs) :
    runRecords s (o :: rest)
      = ((runRecords (recordGitCommand s o).1 rest).1,
         (match (recordGitCommand s o).2 with | some r => [r] | none => [])
           ++ (runRecords (recordGitCommand s o).1 rest).2) := rfl

/-- Helper: over any sequence of _record_git_command calls, the number of records with
a given PID is at most one, and zero when that PID is already cached. -/
theorem runRecords_count_le (p : Nat) :
    ∀ (obs : List ProcObs) (s : MonitorState),
      ((runRecords s obs).2.countP (fun r => r.pid == p))
        ≤ (if p ∈ s.processedPids then 0 else 1) := by
  intro obs
  induction obs with
  | nil => intro s; simp [runRecords]
  | cons o rest ih =>
    intro s
    rw [runRecords_cons]
    rcases recordGitCommand_cases s o with heq | ⟨hnm, hins, r, hr2, hrpid, _⟩
    · rw [heq]
      simpa using ih s
    · rw [hr2]
      have htail := ih (recordGitCommand s o).1
      by_cases hp : o.pid = p
      · subst hp
        have h1 : o.pid ∈ (recordGitCommand s o).1.processedPids := by
          rw [hins]; exact Finset.mem_insert_self _ _
        rw [if_pos h1] at htail
        rw [if_neg hnm]
        simp only [List.countP_append, List.countP_cons, List.countP_nil, hrpid]
        simp only [Nat.le_zero] at htail
        simp [htail]
      · have h2 : (p ∈ (recordGitCommand s o).1.processedPids) ↔ p ∈ s.processedPids := by
          rw [hins, Finset.mem_insert]
          exact or_iff_right (fun he => hp he.symm)
        have hcnt : (List.countP (fun r => r.pid == p) [r]) = 0 := by
          simp [List.countP_cons, hrpid, hp]
        rw [List.countP_append, hcnt]
        simpa [h2] using htail

/-- Claim C1: the admission gate of _record_git_command: a cached PID is rejected with
no analysis and no record (the call is a no-op), a fresh PID with a non-ignored command
is recorded exactly once and cached, and across any sequence of calls (before any
eviction) at most one record per PID reaches the Recorder. -/
theorem admission_idempotence :
    ∀ (s : MonitorState) (o : ProcObs),
      (o.pid ∈ s.processedPids → recordGitCommand s o = (s, none)) ∧
      (o.pid ∉ s.processedPids →
        isIgnoredCommand (String.intercalate " " o.cmdline) s.ignoredCommands = false →
        (recordGitCommand s o).2.isSome = true ∧
        o.pid ∈ (recordGitCommand s o).1.processedPids) ∧
      (∀ (obs : List ProcObs) (p : Nat),
        ((runRecords s obs).2.countP (fun r => r.pid == p))
          ≤ (if p ∈ s.processedPids then 0 else 1)) := by
  intro s o
  refine ⟨fun h => by simp [recordGitCommand, h], fun hnm hni => ?_,
    fun obs p => runRecords_count_le p obs s⟩
  simp [recordGitCommand, hnm, hni]

def w1state : MonitorState :=
  { hostname := "h", storagePath := "./data", monitorInterval := 1, pidCacheTtl := 300,
    ignoredCommands := ["git status", "git diff"], processedPids := {7},
    lastCacheCleanup := 0, lastCommitInfo := [] }

def w1obsA : ProcObs :=
  { pid := 7, cmdline := ["git", "push"], cwd := "/r", username := "u",
    status := "running", env := trivialEnv, timestamp := "t0" }

def w1obsB : ProcObs :=
  { pid := 5, cmdline := ["git", "push"], cwd := "/r", username := "u",
    status := "running", env := trivialEnv, timestamp := "t0" }

/-- Witness for C1: PID 7 is already cached and rejected; PID 5 is fresh, recorded and
cached; two observations of PID 5 yield at most one record. -/
theorem admission_idempotence_witness :
    recordGitCommand w1state w1obsA = (w1state, none) ∧
    ((recordGitCommand w1state w1obsB).2.isSome = true ∧
      5 ∈ (recordGitCommand w1state w1obsB).1.processedPids) ∧
    ((runRecords w1state [w1obsB, w1obsB]).2.countP (fun r => r.pid == 5))
      ≤ (if 5 ∈ w1state.processedPids then 0 else 1) :=
  ⟨(admission_idempotence w1state w1obsA).1 (by decide),
   (admission_idempotence w1state w1obsB).2.1 (by decide) (by decide),
   (admission_idempotence w1state w1obsB).2.2 [w1obsB, w1obsB] 5⟩

/-- Claim C2: _cleanup_pid_cache keeps every cached PID that is in the recomputed live
set, and only removes PIDs absent from it. -/
theorem eviction_preserves_live :
    ∀ (s : MonitorState) (now : Int) (enum : Except Unit (Finset Nat)),
      (∀ A : Finset Nat, enum = Except.ok A →
        ∀ p ∈ s.processedPids, p ∈ A →
          p ∈ (cleanupPidCache s now enum).1.processedPids) ∧
      (∀ p ∈ s.processedPids,
        p ∉ (cleanupPidCache s now enum).1.processedPids →
        ∃ A, enum = Except.ok A ∧ p ∉ A) := by
  intro s now enum
  unfold cleanupPidCache
  split_ifs with hg
  · exact ⟨fun A hA p hp _ => hp, fun p hp hnp => absurd hp hnp⟩
  · cases enum with
    | error e =>
      exact ⟨fun A hA => absurd hA (by simp), fun p hp hnp => absurd hp hnp⟩
    | ok A =>
      dsimp only
      constructor
      · intro A' hA' p hp hpA'
        have hAe : A' = A := by injection hA' with h; exact h.symm
        subst hAe
        split_ifs with he
        · exact hp
        · simp only [Finset.mem_sdiff]
          exact ⟨hp, fun hx => hx.2 hpA'⟩
      · intro p hp hnp
        refine ⟨A, rfl, ?_⟩
        split_ifs at hnp with he
        · exact absurd hp hnp
        · simp only [Finset.mem_sdiff, not_and, not_not] at hnp
          by_contra hpA
          exact hnp hp (fun _ => hpA)

def w2state : MonitorState :=
  { hostname := "h", storagePath := "./data", monitorInterval := 1, pidCacheTtl := 300,
    ignoredCommands := [], processedPids := {3, 9}, lastCacheCleanup := 0,
    lastCommitInfo := [] }

/-- Witness for C2: with live set {3}, PID 3 survives the sweep and the evicted PID 9
is indeed absent from the live set. -/
theorem eviction_preserves_live_witness :
    3 ∈ (cleanupPidCache w2state 100 (Except.ok {3})).1.processedPids ∧
    (∃ A, (Except.ok ({3} : Finset Nat) : Except Unit (Finset Nat)) = Except.ok A ∧
      (9 : Nat) ∉ A) :=
  ⟨(eviction_preserves_live w2state 100 (Except.ok {3})).1 {3} rfl 3 (by decide) (by decide),
   (eviction_preserves_live w2state 100 (Except.ok {3})).2 9 (by decide) (by decide)⟩

/-- Helper: every record a run of _record_git_command calls passes to the Recorder has
a command that does not match the ignore list (the list is never mutated by a call). -/
theorem runRecords_all_not_ignored (igs : List String) :
    ∀ (obs : List ProcObs) (s : MonitorState), s.ignoredCommands = igs →
      (runRecords s obs).2.all
        (fun r => !(isIgnoredCommand r.command igs)) = true := by
  intro obs
  induction obs with
  | nil => intro s _; simp [runRecords]
  | cons o rest ih =>
    intro s hsame
    rw [runRecords_cons]
    have hpres : (recordGitCommand s o).1.ignoredCommands = igs := by
      rw [recordGitCommand_ignored_pres, hsame]
    have htail := ih (recordGitCommand s o).1 hpres
    rw [List.all_append]
    refine Bool.and_eq_true_iff.mpr ⟨?_, htail⟩
    cases h2 : (recordGitCommand s o).2 with
    | none => rfl
    | some r =>
      have := recordGitCommand_record_not_ignored s o r h2
      rw [hsame] at this
      simp [this]

/-- Claim C3 (counterexample): a candidate whose command matches the ignore list
produces no record, but its PID does NOT enter the Seen-PID Cache: the ignore check at
monitor.py:85 returns before the processed_pids.add at monitor.py:157. -/
theorem ignored_pid_not_cached_cex :
    (recordGitCommand
        { hostname := "h", storagePath := "./data", monitorInterval := 1,
          pidCacheTtl := 300, ignoredCommands := ["git status", "git diff"],
          processedPids := ∅, lastCacheCleanup := 0, lastCommitInfo := [] }
        { pid := 5, cmdline := ["git", "status"], cwd := "/r", username := "u",
          status := "running", env := trivialEnv, timestamp := "t0" }).2 = none ∧
    5 ∉ (recordGitCommand
        { hostname := "h", storagePath := "./data", monitorInterval := 1,
          pidCacheTtl := 300, ignoredCommands := ["git status", "git diff"],
          processedPids := ∅, lastCacheCleanup := 0, lastCommitInfo := [] }
        { pid := 5, cmdline := ["git", "status"], cwd := "/r", username := "u",
          status := "running", env := trivialEnv, timestamp := "t0" }).1.processedPids := by
  exact ⟨rfl, by decide⟩

/-- Claim C3 (amended): a candidate whose raw command line starts with a configured
ignore prefix is never recorded — the call is a complete no-op, so the PID does not
enter the Seen-PID Cache and the ignore check is re-evaluated on every tick — and no
record passed to the Recorder over any run ever carries an ignored command. -/
theorem ignored_commands_never_recorded :
    ∀ (s : MonitorState) (o : ProcObs),
      (isIgnoredCommand (String.intercalate " " o.cmdline) s.ignoredCommands = true →
        recordGitCommand s o = (s, none)) ∧
      (∀ obs : List ProcObs,
        (runRecords s obs).2.all
          (fun r => !(isIgnoredCommand r.command s.ignoredCommands)) = true) := by
  intro s o
  constructor
  · intro hig
    simp [recordGitCommand, hig]
  · intro obs
    exact runRecords_all_not_ignored s.ignoredCommands obs s rfl

def c3state : MonitorState :=
  { hostname := "h", storagePath := "./data", monitorInterval := 1, pidCacheTtl := 300,
    ignoredCommands := ["git status", "git diff"], processedPids := ∅,
    lastCacheCleanup := 0, lastCommitInfo := [] }

def c3obsIgnored : ProcObs :=
  { pid := 5, cmdline := ["git", "status"], cwd := "/r", username := "u",
    status := "running", env := trivialEnv, timestamp := "t0" }

/-- Witness for the amended C3 with the default ignore list on "git status". -/
theorem ignored_commands_never_recorded_witness :
    recordGitCommand c3state c3obsIgnored = (c3state, none) ∧
    (runRecords c3state [c3obsIgnored]).2.all
      (fun r => !(isIgnoredCommand r.command c3state.ignoredCommands)) = true :=
  ⟨(ignored_commands_never_recorded c3state c3obsIgnored).1 (by decide),
   (ignored_commands_never_recorded c3state c3obsIgnored).2 [c3obsIgnored]⟩

/-- Helper: inside 60 seconds of the previous pass _cleanup_pid_cache is a no-op. -/
theorem cleanupPidCache_skipped (s : MonitorState) (now : Int)
    (enum : Except Unit (Finset Nat)) (h : now - s.lastCacheCleanup < 60) :
    cleanupPidCache s now enum = (s, CleanupOutcome.skipped) := by
  simp [cleanupPidCache, h]

/-- Helper: a pass that clears the cadence gate stamps last_cache_cleanup := now. -/
theorem cleanupPidCache_last (s : MonitorState) (now : Int)
    (enum : Except Unit (Finset Nat)) (h : ¬ (now - s.lastCacheCleanup < 60)) :
    (cleanupPidCache s now enum).1.lastCacheCleanup = now := by
  cases enum with
  | error u => simp [cleanupPidCache, h]
  | ok A =>
    by_cases he : s.processedPids \ A = ∅
    · simp [cleanupPidCache, h, he]
    · simp [cleanupPidCache, h, he]

/-- Helper: a pass that clears the cadence gate is not skipped. -/
theorem cleanupPidCache_not_skipped (s : MonitorState) (now : Int)
    (enum : Except Unit (Finset Nat)) (h : ¬ (now - s.lastCacheCleanup < 60)) :
    (cleanupPidCache s now enum).2 ≠ CleanupOutcome.skipped := by
  cases enum with
  | error u => simp [cleanupPidCache, h]
  | ok A =>
    by_cases he : s.processedPids \ A = ∅
    · simp [cleanupPidCache, h, he]
    · simp [cleanupPidCache, h, he]

/-- Claim C8: when process enumeration fails during an eviction pass (one that passed
the cadence gate), the cached PID set is unchanged, the call returns the caught-and-
logged enumeration-failure outcome instead of propagating, and a later cycle (60
seconds on) performs the sweep. -/
theorem cleanup_enum_failure :
    ∀ (s : MonitorState) (now : Int),
      60 ≤ now - s.lastCacheCleanup →
      (cleanupPidCache s now (Except.error ())).1.processedPids = s.processedPids ∧
      (cleanupPidCache s now (Except.error ())).2 = CleanupOutcome.enumFailed ∧
      (∀ (nxt : Int) (A : Finset Nat), 60 ≤ nxt - now →
        (cleanupPidCache (cleanupPidCache s now (Except.error ())).1 nxt
            (Except.ok A)).2 ≠ CleanupOutcome.skipped) := by
  intro s now h
  have hg : ¬ (now - s.lastCacheCleanup < 60) := by omega
  have hstep : cleanupPidCache s now (Except.error ())
      = ({ s with lastCacheCleanup := now }, CleanupOutcome.enumFailed) := by
    simp [cleanupPidCache, hg]
  refine ⟨by rw [hstep], by rw [hstep], ?_⟩
  intro nxt A h'
  rw [hstep]
  refine cleanupPidCache_not_skipped _ nxt (Except.ok A) ?_
  rw [show ({ s with lastCacheCleanup := now } : MonitorState).lastCacheCleanup = now
    from rfl]
  omega

def w8state : MonitorState :=
  { hostname := "h", storagePath := "./data", monitorInterval := 1, pidCacheTtl := 300,
    ignoredCommands := [], processedPids := {4}, lastCacheCleanup := 0,
    lastCommitInfo := [] }

/-- Witness for C8 at a concrete failed enumeration 100 seconds in. -/
theorem cleanup_enum_failure_witness :
    (cleanupPidCache w8state 100 (Except.error ())).1.processedPids
      = w8state.processedPids ∧
    (cleanupPidCache w8state 100 (Except.error ())).2 = CleanupOutcome.enumFailed ∧
    (cleanupPidCache (cleanupPidCache w8state 100 (Except.error ())).1 160
        (Except.ok {4})).2 ≠ CleanupOutcome.skipped :=
  ⟨(cleanup_enum_failure w8state 100 (by decide)).1,
   (cleanup_enum_failure w8state 100 (by decide)).2.1,
   (cleanup_enum_failure w8state 100 (by decide)).2.2 160 {4} (by decide)⟩

/-- Claim C9 (counterexample): with the default pid_cache_ttl of 300 stored in the
monitor, two liveness recomputations happen only 60 seconds apart — the sweep cadence
is the hard-coded 60 of monitor.py:181, not the configured value. -/
theorem cadence_not_ttl_cex :
    ({ hostname := "h", storagePath := "./data", monitorInterval := 1,
       pidCacheTtl := 300, ignoredCommands := [], processedPids := ∅,
       lastCacheCleanup := 0, lastCommitInfo := [] } : MonitorState).pidCacheTtl
      = 300 ∧
    (cleanupPidCache
        { hostname := "h", storagePath := "./data", monitorInterval := 1,
          pidCacheTtl := 300, ignoredCommands := [], processedPids := ∅,
          lastCacheCleanup := 0, lastCommitInfo := [] } 60 (Except.ok ∅)).2
      ≠ CleanupOutcome.skipped ∧
    (cleanupPidCache
        (cleanupPidCache
          { hostname := "h", storagePath := "./data", monitorInterval := 1,
            pidCacheTtl := 300, ignoredCommands := [], processedPids := ∅,
            lastCacheCleanup := 0, lastCommitInfo := [] } 60 (Except.ok ∅)).1
        120 (Except.ok ∅)).2 ≠ CleanupOutcome.skipped ∧
    ((120 : Int) - 60 < 300) := by
  exact ⟨rfl, by decide, by decide, by decide⟩

/-- Claim C9 (amended): the pid_cache_ttl configuration value (default 300) is read and
stored by the monitor, but the eviction sweep never consults it: the sweep is gated by
a hard-coded 60-second cadence — skipped inside 60 seconds of the previous pass, and
two consecutive performed recomputations are always at least 60 seconds apart,
whatever the configured value is. -/
theorem ttl_read_cadence_hardcoded :
    (∀ (cfg : ConfigInput) (now : Int),
      (initMonitor cfg now).pidCacheTtl = cfg.pid_cache_ttl.getD 300) ∧
    (∀ (s : MonitorState) (now : Int) (enum : Except Unit (Finset Nat)),
      now - s.lastCacheCleanup < 60 →
      cleanupPidCache s now enum = (s, CleanupOutcome.skipped)) ∧
    (∀ (s : MonitorState) (c now : Int) (enum : Except Unit (Finset Nat)),
      cleanupPidCache { s with pidCacheTtl := c } now enum
        = ({ (cleanupPidCache s now enum).1 with pidCacheTtl := c },
           (cleanupPidCache s now enum).2)) ∧
    (∀ (s : MonitorState) (t tnxt : Int) (e enxt : Except Unit (Finset Nat)),
      (cleanupPidCache s t e).2 ≠ CleanupOutcome.skipped →
      (cleanupPidCache (cleanupPidCache s t e).1 tnxt enxt).2
        ≠ CleanupOutcome.skipped →
      60 ≤ tnxt - t) := by
  refine ⟨fun cfg now => rfl, fun s now enum h => by simp [cleanupPidCache, h], ?_, ?_⟩
  · intro s c now enum
    cases enum with
    | error e =>
      by_cases hg : now - s.lastCacheCleanup < 60
      · simp [cleanupPidCache, hg]
      · simp [cleanupPidCache, hg]
    | ok A =>
      by_cases hg : now - s.lastCacheCleanup < 60
      · simp [cleanupPidCache, hg]
      · by_cases he : s.processedPids \ A = ∅
        · simp [cleanupPidCache, hg, he]
        · simp [cleanupPidCache, hg, he]
  · intro s t tnxt e enxt h1 h2
    have hg1 : ¬ (t - s.lastCacheCleanup < 60) :=
      fun hg => h1 (by rw [cleanupPidCache_skipped s t e hg])
    have hlast := cleanupPidCache_last s t e hg1
    have hg2 : ¬ (tnxt - (cleanupPidCache s t e).1.lastCacheCleanup < 60) :=
      fun hg => h2 (by rw [cleanupPidCache_skipped _ tnxt enxt hg])
    rw [hlast] at hg2
    omega

def w9cfg : ConfigInput :=
  { storage_path := none, monitor_interval := none, ignored_commands := none,
    pid_cache_ttl := some 300, hostname := "h" }

/-- Witness for the amended C9: the configured value is stored, a call 30 seconds after
the previous pass is skipped, the sweep ignores the ttl field, and two performed
sweeps at 60 and 120 are 60 apart. -/
theorem ttl_read_cadence_hardcoded_witness :
    (initMonitor w9cfg 0).pidCacheTtl = (w9cfg.pid_cache_ttl).getD 300 ∧
    cleanupPidCache w8state 30 (Except.error ()) = (w8state, CleanupOutcome.skipped) ∧
    cleanupPidCache { w8state with pidCacheTtl := 7 } 100 (Except.ok {4})
      = ({ (cleanupPidCache w8state 100 (Except.ok {4})).1 with pidCacheTtl := 7 },
         (cleanupPidCache w8state 100 (Except.ok {4})).2) ∧
    (60 : Int) ≤ 120 - 60 :=
  ⟨ttl_read_cadence_hardcoded.1 w9cfg 0,
   ttl_read_cadence_hardcoded.2.1 w8state 30 (Except.error ()) (by decide),
   ttl_read_cadence_hardcoded.2.2.1 w8state 7 100 (Except.ok {4}),
   ttl_read_cadence_hardcoded.2.2.2
     { w8state with lastCacheCleanup := 0 } 60 120 (Except.ok ∅) (Except.ok ∅)
     (by decide) (by decide)⟩
